import Mathlib

/-!
Verification of the vector-math script `src/python_test/src/vecrot.py`.

The script builds two 3D vectors `v1 = (1,2,3)` and `v2 = (4,5,6)`,
computes their component-wise sum and difference inline, and delegates
dot product, cross product, magnitude and normalization to the external
OCCT `gp_Vec` type; the results are assembled into an ordered record of
eight labelled entries and serialized.  Components are modelled as real
numbers; the external `gp_Vec` operations are modelled from the spec.
-/

/-- The 3-component vector type of the script (`gp_Vec` from `OCP.gp`).
Fields mirror the accessors `X()`, `Y()`, `Z()`. -/
structure gp_Vec where
  X : ℝ
  Y : ℝ
  Z : ℝ

/-- Component-wise sum, from `main` line 37:
`gp_Vec(v1.X() + v2.X(), v1.Y() + v2.Y(), v1.Z() + v2.Z())`. -/
def add (a b : gp_Vec) : gp_Vec :=
  ⟨a.X + b.X, a.Y + b.Y, a.Z + b.Z⟩

/-- Component-wise difference, from `main` line 40:
`gp_Vec(v1.X() - v2.X(), v1.Y() - v2.Y(), v1.Z() - v2.Z())`. -/
def subtract (a b : gp_Vec) : gp_Vec :=
  ⟨a.X - b.X, a.Y - b.Y, a.Z - b.Z⟩

/-- Sign flip of all three components (used by the spec's algebraic
properties). -/
def negate (a : gp_Vec) : gp_Vec :=
  ⟨-a.X, -a.Y, -a.Z⟩

/-- Modelled from the spec: `gp_Vec.Dot` lives in the external OCCT
library, not in this repository; the spec gives
`dot(a, b) = a.x*b.x + a.y*b.y + a.z*b.z`. -/
def gp_Vec.Dot (a b : gp_Vec) : ℝ :=
  a.X * b.X + a.Y * b.Y + a.Z * b.Z

/-- Modelled from the spec: `gp_Vec.Crossed` lives in the external OCCT
library, not in this repository; the spec gives the standard 3D cross
product `x = a.y*b.z - a.z*b.y`, `y = a.z*b.x - a.x*b.z`,
`z = a.x*b.y - a.y*b.x`. -/
def gp_Vec.Crossed (a b : gp_Vec) : gp_Vec :=
  ⟨a.Y * b.Z - a.Z * b.Y, a.Z * b.X - a.X * b.Z, a.X * b.Y - a.Y * b.X⟩

/-- Modelled from the spec: `gp_Vec.Magnitude` lives in the external OCCT
library, not in this repository; the spec gives the Euclidean norm
`sqrt(x² + y² + z²)`. -/
noncomputable def gp_Vec.Magnitude (a : gp_Vec) : ℝ :=
  Real.sqrt (a.X ^ 2 + a.Y ^ 2 + a.Z ^ 2)

/-- Scaling a vector by a scalar, multiplying each component. -/
def smul (c : ℝ) (a : gp_Vec) : gp_Vec :=
  ⟨c * a.X, c * a.Y, c * a.Z⟩

/-- The error raised when normalizing a zero-magnitude vector. -/
inductive VecError where
  | DivisionByZero

/-- Modelled from the spec: `gp_Vec.Normalized` lives in the external
OCCT library, not in this repository; the spec says it returns the
vector scaled by `1/magnitude`, and fails with a DivisionByZero
(or equivalent domain error) when the magnitude is zero. -/
noncomputable def gp_Vec.Normalized (a : gp_Vec) : Except VecError gp_Vec :=
  if a.Magnitude = 0 then .error .DivisionByZero
  else .ok (smul (1 / a.Magnitude) a)

/-- `v1 = gp_Vec(1.0, 2.0, 3.0)` from `main` line 33. -/
def v1 : gp_Vec := ⟨1, 2, 3⟩

/-- `v2 = gp_Vec(4.0, 5.0, 6.0)` from `main` line 34. -/
def v2 : gp_Vec := ⟨4, 5, 6⟩

/-- A JSON-like value in the output record: either a serialized vector
(an ordered list of field-name/number pairs) or a bare scalar. -/
inductive JValue where
  | vecDict : List (String × ℝ) → JValue
  | num : ℝ → JValue

/-- `vector_to_dict` from the source (lines 23-29): the components of a
vector as an ordered record with fields `x`, `y`, `z`. -/
def vector_to_dict (vec : gp_Vec) : List (String × ℝ) :=
  [("x", vec.X), ("y", vec.Y), ("z", vec.Z)]

/-- The `output` record assembled by `main` (lines 55-64) from the two
input vectors, with the operation results inlined; the computation
fails if normalization does. -/
noncomputable def buildOutput (a b : gp_Vec) :
    Except VecError (List (String × JValue)) :=
  match gp_Vec.Normalized a with
  | .error e => .error e
  | .ok a_normalized =>
    .ok [("v1", .vecDict (vector_to_dict a)),
         ("v2", .vecDict (vector_to_dict b)),
         ("v1 + v2", .vecDict (vector_to_dict (add a b))),
         ("v1 - v2", .vecDict (vector_to_dict (subtract a b))),
         ("v1 dot v2", .num (gp_Vec.Dot a b)),
         ("v1 cross v2", .vecDict (vector_to_dict (gp_Vec.Crossed a b))),
         ("v1 magnitude", .num (gp_Vec.Magnitude a)),
         ("v1 normalized", .vecDict (vector_to_dict a_normalized))]

/-- The whole program: `main` takes no input (the argument models the
process arguments, which the script never reads) and produces the
output record for the hard-coded `v1` and `v2`. -/
noncomputable def runProgram (_args : List String) :
    Except VecError (List (String × JValue)) :=
  buildOutput v1 v2

/-- The record `main` produces for the hard-coded inputs, every value
spelled out. -/
noncomputable def mainRecord : List (String × JValue) :=
  [("v1", .vecDict (vector_to_dict v1)),
   ("v2", .vecDict (vector_to_dict v2)),
   ("v1 + v2", .vecDict (vector_to_dict (add v1 v2))),
   ("v1 - v2", .vecDict (vector_to_dict (subtract v1 v2))),
   ("v1 dot v2", .num (gp_Vec.Dot v1 v2)),
   ("v1 cross v2", .vecDict (vector_to_dict (gp_Vec.Crossed v1 v2))),
   ("v1 magnitude", .num (gp_Vec.Magnitude v1)),
   ("v1 normalized",
     .vecDict (vector_to_dict (smul (1 / gp_Vec.Magnitude v1) v1)))]

/-- A value shape allowed in the output record: a vector record with
exactly the ordered fields `x`, `y`, `z`, or a scalar. -/
def vecOrScalar : JValue → Prop
  | .vecDict d => d.map Prod.fst = ["x", "y", "z"]
  | .num _ => True

/-- A heap of allocated `gp_Vec` objects; an address is an index in
allocation order. -/
abbrev Heap := List gp_Vec

/-- Reading the object at an address. -/
def Heap.read (h : Heap) (a : Nat) : Option gp_Vec :=
  h.get? a

/-- Allocating a fresh object, as the `gp_Vec(...)` constructor and the
`Crossed`/`Normalized` calls do; returns the new heap and the fresh
address. -/
def Heap.alloc (h : Heap) (v : gp_Vec) : Heap × Nat :=
  (h ++ [v], h.length)

/-- A binary vector operation run against the heap, as `main` performs
the sum, difference and cross product: read both argument objects and
allocate a fresh object holding the result. -/
def allocResult (h : Heap) (f : gp_Vec → gp_Vec → gp_Vec) (a b : Nat) :
    Option (Heap × Nat) :=
  match h.read a, h.read b with
  | some va, some vb => some (h.alloc (f va vb))
  | _, _ => none

/-- A fallible unary vector operation run against the heap, as `main`
performs normalization: read the argument object and, on success,
allocate a fresh object holding the result. -/
def allocUnary (h : Heap) (g : gp_Vec → Except VecError gp_Vec)
    (a : Nat) : Option (Except VecError (Heap × Nat)) :=
  match h.read a with
  | some va =>
    match g va with
    | .ok v => some (.ok (h.alloc v))
    | .error e => some (.error e)
  | none => none

/- ### Theorems -/

/-- Helper: the magnitude of `v1 = (1,2,3)` is `sqrt 14`. -/
theorem v1_Magnitude_eq : v1.Magnitude = Real.sqrt 14 := by
  simp only [gp_Vec.Magnitude, v1]
  norm_num

/-- Helper: the magnitude of `v1` is non-zero. -/
theorem v1_Magnitude_ne_zero : v1.Magnitude ≠ 0 := by
  rw [v1_Magnitude_eq]
  exact (Real.sqrt_pos.mpr (by norm_num)).ne'

/-- C1: for the fixed inputs `v1 = (1,2,3)` and `v2 = (4,5,6)` the
program computes `add = (5,7,9)`, `subtract = (-3,-3,-3)`, `dot = 32`
and `cross = (-3,6,-3)`. -/
theorem claim_C1_concrete_results :
    add v1 v2 = ⟨5, 7, 9⟩ ∧
    subtract v1 v2 = ⟨-3, -3, -3⟩ ∧
    gp_Vec.Dot v1 v2 = 32 ∧
    gp_Vec.Crossed v1 v2 = ⟨-3, 6, -3⟩ := by
  refine ⟨?_, ?_, ?_, ?_⟩ <;>
    simp [add, subtract, gp_Vec.Dot, gp_Vec.Crossed, v1, v2,
      gp_Vec.mk.injEq] <;> norm_num

/-- C2: for every pair of vectors, `Crossed` returns the vector with
components `x = a.y*b.z - a.z*b.y`, `y = a.z*b.x - a.x*b.z`,
`z = a.x*b.y - a.y*b.x`. -/
theorem claim_C2_cross_formula (a b : gp_Vec) :
    gp_Vec.Crossed a b =
      ⟨a.Y * b.Z - a.Z * b.Y, a.Z * b.X - a.X * b.Z, a.X * b.Y - a.Y * b.X⟩ :=
  rfl

/-- C5: the cross product is anticommutative:
`Crossed a b = negate (Crossed b a)` for all vectors `a`, `b`. -/
theorem claim_C5_cross_anticommutative (a b : gp_Vec) :
    gp_Vec.Crossed a b = negate (gp_Vec.Crossed b a) := by
  simp only [gp_Vec.Crossed, negate, gp_Vec.mk.injEq]
  refine ⟨by ring, by ring, by ring⟩

/-- C6: addition is commutative: `add a b = add b a` for all vectors
`a`, `b`. -/
theorem claim_C6_add_commutative (a b : gp_Vec) :
    add a b = add b a := by
  simp only [add, gp_Vec.mk.injEq]
  refine ⟨by ring, by ring, by ring⟩

/-- C3: `Normalized` fails with DivisionByZero exactly when the
magnitude is zero; on any vector of non-zero magnitude it succeeds and
returns the vector scaled by `1/magnitude`. -/
theorem claim_C3_normalize_error_condition (a : gp_Vec) :
    (gp_Vec.Magnitude a = 0 ∧
      gp_Vec.Normalized a = .error .DivisionByZero) ∨
    (gp_Vec.Magnitude a ≠ 0 ∧
      gp_Vec.Normalized a = .ok (smul (1 / gp_Vec.Magnitude a) a)) := by
  by_cases h : gp_Vec.Magnitude a = 0
  · exact Or.inl ⟨h, by simp [gp_Vec.Normalized, h]⟩
  · exact Or.inr ⟨h, by simp [gp_Vec.Normalized, h]⟩

/-- C4: the magnitude is the Euclidean norm `sqrt(x² + y² + z²)`; it is
always non-negative, and it is zero iff the vector is `(0,0,0)`. -/
theorem claim_C4_magnitude_euclidean (a : gp_Vec) :
    gp_Vec.Magnitude a = Real.sqrt (a.X ^ 2 + a.Y ^ 2 + a.Z ^ 2) ∧
    0 ≤ gp_Vec.Magnitude a ∧
    (gp_Vec.Magnitude a = 0 ↔ a = ⟨0, 0, 0⟩) := by
  obtain ⟨x, y, z⟩ := a
  refine ⟨rfl, Real.sqrt_nonneg _, ?_, ?_⟩
  · intro h
    rw [gp_Vec.Magnitude, Real.sqrt_eq_zero'] at h
    simp only [gp_Vec.mk.injEq]
    refine ⟨?_, ?_, ?_⟩ <;>
      nlinarith [sq_nonneg x, sq_nonneg y, sq_nonneg z]
  · intro h
    rw [h]
    simp [gp_Vec.Magnitude]

/-- C9: normalizing any vector of non-zero magnitude succeeds and yields
a vector of magnitude exactly 1 (the real-valued ideal of the spec's
"within floating-point tolerance of 1.0"). -/
theorem claim_C9_normalized_unit (a : gp_Vec)
    (h : gp_Vec.Magnitude a ≠ 0) :
    ∃ u, gp_Vec.Normalized a = .ok u ∧ gp_Vec.Magnitude u = 1 := by
  refine ⟨smul (1 / a.Magnitude) a, by simp [gp_Vec.Normalized, h], ?_⟩
  obtain ⟨x, y, z⟩ := a
  have hS : (0 : ℝ) ≤ x ^ 2 + y ^ 2 + z ^ 2 := by positivity
  have hm : gp_Vec.Magnitude ⟨x, y, z⟩ = Real.sqrt (x ^ 2 + y ^ 2 + z ^ 2) :=
    rfl
  rw [hm] at h
  have hsq : Real.sqrt (x ^ 2 + y ^ 2 + z ^ 2) ^ 2 = x ^ 2 + y ^ 2 + z ^ 2 :=
    Real.sq_sqrt hS
  have hSne : x ^ 2 + y ^ 2 + z ^ 2 ≠ 0 := by
    intro h0
    exact h (by rw [h0, Real.sqrt_zero])
  have harg :
      (1 / Real.sqrt (x ^ 2 + y ^ 2 + z ^ 2) * x) ^ 2 +
        (1 / Real.sqrt (x ^ 2 + y ^ 2 + z ^ 2) * y) ^ 2 +
        (1 / Real.sqrt (x ^ 2 + y ^ 2 + z ^ 2) * z) ^ 2 = 1 := by
    have expand :
        (1 / Real.sqrt (x ^ 2 + y ^ 2 + z ^ 2) * x) ^ 2 +
          (1 / Real.sqrt (x ^ 2 + y ^ 2 + z ^ 2) * y) ^ 2 +
          (1 / Real.sqrt (x ^ 2 + y ^ 2 + z ^ 2) * z) ^ 2 =
        (x ^ 2 + y ^ 2 + z ^ 2) /
          Real.sqrt (x ^ 2 + y ^ 2 + z ^ 2) ^ 2 := by
      ring
    rw [expand, hsq, div_self hSne]
  show gp_Vec.Magnitude _ = 1
  simp only [smul, gp_Vec.Magnitude, hm]
  rw [harg, Real.sqrt_one]

/-- Witness for C9 at the concrete vector `v1 = (1,2,3)`. -/
theorem claim_C9_witness :
    gp_Vec.Magnitude v1 ≠ 0 ∧
    ∃ u, gp_Vec.Normalized v1 = .ok u ∧ gp_Vec.Magnitude u = 1 :=
  ⟨v1_Magnitude_ne_zero, claim_C9_normalized_unit v1 v1_Magnitude_ne_zero⟩

/-- Helper: normalizing `v1` succeeds with the scaled vector. -/
theorem v1_Normalized_eq :
    gp_Vec.Normalized v1 = .ok (smul (1 / gp_Vec.Magnitude v1) v1) := by
  simp [gp_Vec.Normalized, v1_Magnitude_ne_zero]

/-- Helper: the output record of the program run on the hard-coded
inputs. -/
theorem buildOutput_v1_v2 : buildOutput v1 v2 = .ok mainRecord := by
  unfold buildOutput
  rw [v1_Normalized_eq]
  rfl

/-- Helper: allocation preserves every existing heap cell. -/
theorem Heap.read_alloc_frame (h : Heap) (v : gp_Vec) (i : Nat)
    (hi : i < h.length) : Heap.read (h ++ [v]) i = Heap.read h i := by
  simp only [Heap.read, List.get?_eq_getElem?]
  exact List.getElem?_append_left hi

/-- Helper: successful `allocResult` reads both inputs and appends a
fresh cell. -/
theorem allocResult_eq (h : Heap) (f : gp_Vec → gp_Vec → gp_Vec)
    (a b : Nat) (h2 : Heap) (r : Nat)
    (hbin : allocResult h f a b = some (h2, r)) :
    ∃ va vb, Heap.read h a = some va ∧ Heap.read h b = some vb ∧
      h2 = h ++ [f va vb] ∧ r = h.length := by
  cases hx : Heap.read h a with
  | none => simp [allocResult, hx] at hbin
  | some va =>
    cases hy : Heap.read h b with
    | none => simp [allocResult, hx, hy] at hbin
    | some vb =>
      simp [allocResult, hx, hy, Heap.alloc] at hbin
      exact ⟨va, vb, rfl, rfl, hbin.1.symm, hbin.2.symm⟩

/-- Helper: successful `allocUnary` reads its input and appends a fresh
cell. -/
theorem allocUnary_eq (h : Heap) (g : gp_Vec → Except VecError gp_Vec)
    (c : Nat) (h3 : Heap) (s : Nat)
    (hun : allocUnary h g c = some (.ok (h3, s))) :
    ∃ vc v, Heap.read h c = some vc ∧ g vc = .ok v ∧
      h3 = h ++ [v] ∧ s = h.length := by
  cases hx : Heap.read h c with
  | none => simp [allocUnary, hx] at hun
  | some vc =>
    cases hg : g vc with
    | error e => simp [allocUnary, hx, hg] at hun
    | ok v =>
      simp [allocUnary, hx, hg, Heap.alloc] at hun
      exact ⟨vc, v, rfl, hg, hun.1.symm, hun.2.symm⟩

/-- C7: whenever the program's output record is produced, it maps
exactly the eight fixed labels, in order, and every value is a
three-field vector record (`x`, `y`, `z`) or a scalar. -/
theorem claim_C7_output_labels (a b : gp_Vec)
    (out : List (String × JValue)) (hout : buildOutput a b = .ok out) :
    out.map Prod.fst = ["v1", "v2", "v1 + v2", "v1 - v2", "v1 dot v2",
      "v1 cross v2", "v1 magnitude", "v1 normalized"] ∧
    ∀ p ∈ out, vecOrScalar p.2 := by
  cases hnorm : gp_Vec.Normalized a with
  | error e =>
    unfold buildOutput at hout
    rw [hnorm] at hout
    simp at hout
  | ok u =>
    unfold buildOutput at hout
    rw [hnorm] at hout
    simp only [Except.ok.injEq] at hout
    subst hout
    refine ⟨rfl, ?_⟩
    intro p hp
    simp only [List.mem_cons, List.not_mem_nil, or_false] at hp
    rcases hp with h1 | h1 | h1 | h1 | h1 | h1 | h1 | h1 <;>
      subst h1 <;> simp [vecOrScalar, vector_to_dict]

/-- Witness for C7 at the program's hard-coded inputs. -/
theorem claim_C7_witness :
    mainRecord.map Prod.fst = ["v1", "v2", "v1 + v2", "v1 - v2",
      "v1 dot v2", "v1 cross v2", "v1 magnitude", "v1 normalized"] ∧
    ∀ p ∈ mainRecord, vecOrScalar p.2 :=
  claim_C7_output_labels v1 v2 mainRecord buildOutput_v1_v2

/-- C8: no operation mutates its input objects: a vector operation run
against the heap leaves every existing object unchanged and returns its
result as a freshly allocated object at a new address; this covers the
binary operations (sum, difference, cross product) and fallible unary
normalization, while the scalar results (dot product, magnitude) never
touch the heap at all. -/
theorem claim_C8_operations_never_mutate (h : Heap)
    (f : gp_Vec → gp_Vec → gp_Vec) (g : gp_Vec → Except VecError gp_Vec)
    (a b c : Nat) (h2 h3 : Heap) (r s : Nat)
    (hbin : allocResult h f a b = some (h2, r))
    (hun : allocUnary h g c = some (.ok (h3, s))) :
    ((∀ i, i < h.length → Heap.read h2 i = Heap.read h i) ∧
      r = h.length) ∧
    ((∀ i, i < h.length → Heap.read h3 i = Heap.read h i) ∧
      s = h.length) := by
  obtain ⟨va, vb, _, _, hh2, hr⟩ := allocResult_eq h f a b h2 r hbin
  obtain ⟨vc, v, _, _, hh3, hs⟩ := allocUnary_eq h g c h3 s hun
  subst hh2
  subst hh3
  exact ⟨⟨fun i hi => Heap.read_alloc_frame h _ i hi, hr⟩,
    ⟨fun i hi => Heap.read_alloc_frame h _ i hi, hs⟩⟩

/-- Witness for C8: the cross product and normalization of the script,
run on a heap holding `v1` and `v2`, leave both inputs unchanged. -/
theorem claim_C8_witness :
    Heap.read [v1, v2, gp_Vec.Crossed v1 v2] 0 = Heap.read [v1, v2] 0 ∧
    Heap.read [v1, v2, gp_Vec.Crossed v1 v2] 1 = Heap.read [v1, v2] 1 ∧
    Heap.read [v1, v2, smul (1 / gp_Vec.Magnitude v1) v1] 0 =
      Heap.read [v1, v2] 0 := by
  have hun : allocUnary [v1, v2] gp_Vec.Normalized 0 =
      some (.ok ([v1, v2, smul (1 / gp_Vec.Magnitude v1) v1], 2)) := by
    simp [allocUnary, Heap.read, Heap.alloc, v1_Normalized_eq]
  have t := claim_C8_operations_never_mutate [v1, v2] gp_Vec.Crossed
    gp_Vec.Normalized 0 1 0 [v1, v2, gp_Vec.Crossed v1 v2]
    [v1, v2, smul (1 / gp_Vec.Magnitude v1) v1] 2 2 rfl hun
  exact ⟨t.1.1 0 (by decide), t.1.1 1 (by decide), t.2.1 0 (by decide)⟩

/-- C10: the program is deterministic: it reads none of its arguments,
so any two runs produce the identical record, which is the fixed
eight-entry `mainRecord`. -/
theorem claim_C10_deterministic (args1 args2 : List String) :
    runProgram args1 = runProgram args2 ∧
    runProgram args1 = .ok mainRecord ∧
    mainRecord.length = 8 :=
  ⟨rfl, buildOutput_v1_v2, rfl⟩
